import Mathlib

/-!
Shallow embedding of the AstroSynth repository's two scripts:

* `scripts/migrate_to_sqlite.py` — the Loader: reads a JSON array of planet
  records and inserts them into a freshly (re)created SQLite table `planets`
  with a `UNIQUE NOT NULL` column `pl_name`, counting inserted and skipped
  records, with bounded logging (messages only while the skip counter is ≤ 5),
  and printing a post-load report (row count, top methods, MIN/MAX of the
  non-null `disc_year` column).

* `scripts/test.py` — the Fetcher: issues one HTTP GET; on a non-200 status it
  raises `RuntimeError(f"HTTP \x7bresp.status_code\x7d: \x7bresp.text[:200]\x7d")`
  and the `__main__` block consequently writes no output file; it also defines
  an (unused) `paginate` generator yielding `data[i:i+batch_size]` for
  `i in range(0, len(data), batch_size)`.

The Loader's input domain is, per the repository's interface contract, a JSON
array of objects.  A JSON value is modelled by `JValue` (numbers as integers:
no arithmetic is ever performed on stored field values, and the one numeric
column the scripts aggregate, `disc_year`, is integer-valued); a record is an
association list of key/value pairs, later keys shadowing earlier ones exactly
as in Python's `json`/`dict` semantics.
-/

/-- A JSON value, as produced by Python's `json.load`. -/
inductive JValue where
  | jnull : JValue
  | jbool (b : Bool) : JValue
  | jnum (n : Int) : JValue
  | jstr (s : String) : JValue
  | jarr (vs : List JValue) : JValue
  | jobj (kvs : List (String × JValue)) : JValue

/-- One element of the Loader's input array: a JSON object, i.e. a list of
key/value pairs (Python dict: a later binding of the same key shadows an
earlier one). -/
abbrev Record := List (String × JValue)

/-- `getField planet k` is Python's `planet[k]` lookup outcome: the value of
the LAST pair with key `k` (duplicate JSON keys keep the last), or `none` when
the key is absent. -/
def getField : Record → String → Option JValue
  | [], _ => none
  | (k, v) :: rest, key =>
      match getField rest key with
      | some w => some w
      | none => if k = key then some v else none

/-- A value as bound into the SQLite statement.  Python `None` ↦ `vnull`,
`bool` ↦ integers 0/1, numbers ↦ `vint`, strings ↦ `vtext`. -/
inductive SQLValue where
  | vnull : SQLValue
  | vint (n : Int) : SQLValue
  | vtext (s : String) : SQLValue
deriving DecidableEq, Repr

/-- Parameter binding performed by `cursor.execute`: `None`/JSON null bind to
SQL NULL, booleans and numbers to integers, strings to text; a list or a dict
cannot be bound and raises `sqlite3.InterfaceError` (modelled as `none`),
which the loader's generic `except Exception` branch catches. -/
def toSQL : JValue → Option SQLValue
  | .jnull => some .vnull
  | .jbool b => some (.vint (if b then 1 else 0))
  | .jnum n => some (.vint n)
  | .jstr s => some (.vtext s)
  | .jarr _ => none
  | .jobj _ => none

/-- `planet.get(k)`: the stored value, or Python `None` (JSON null) when the
key is absent. -/
def fieldParam (planet : Record) (k : String) : JValue :=
  match getField planet k with
  | some v => v
  | none => .jnull

/-- `planet.get('default_flag', 1)`: the stored value when the key is present
(even when that value is null), otherwise the integer 1. -/
def defaultFlagParam (planet : Record) : JValue :=
  match getField planet "default_flag" with
  | some v => v
  | none => .jnum 1

/-- A row of the `planets` table as the INSERT statement populates it: the 18
data columns, in the column order of the INSERT in `migrate_json_to_sqlite`
(`id` and `created_at` are filled in by SQLite itself and carry no
record-derived data; they are modelled at the schema level only). -/
structure Row where
  pl_name : SQLValue
  hostname : SQLValue
  sy_dist : SQLValue
  pl_orbper : SQLValue
  pl_rade : SQLValue
  pl_bmasse : SQLValue
  pl_eqt : SQLValue
  pl_orbsmax : SQLValue
  pl_orbeccen : SQLValue
  st_spectype : SQLValue
  st_teff : SQLValue
  st_rad : SQLValue
  st_mass : SQLValue
  disc_year : SQLValue
  discoverymethod : SQLValue
  ra : SQLValue
  dec : SQLValue
  default_flag : SQLValue
deriving DecidableEq, Repr

/-- Binding the 18 parameters of the INSERT statement, one per
`planet.get(...)` of the source tuple; `none` when any value fails to bind
(`sqlite3.InterfaceError`). -/
def bindRow (planet : Record) : Option Row :=
  match toSQL (fieldParam planet "pl_name"),
        toSQL (fieldParam planet "hostname"),
        toSQL (fieldParam planet "sy_dist"),
        toSQL (fieldParam planet "pl_orbper"),
        toSQL (fieldParam planet "pl_rade"),
        toSQL (fieldParam planet "pl_bmasse"),
        toSQL (fieldParam planet "pl_eqt"),
        toSQL (fieldParam planet "pl_orbsmax"),
        toSQL (fieldParam planet "pl_orbeccen"),
        toSQL (fieldParam planet "st_spectype"),
        toSQL (fieldParam planet "st_teff"),
        toSQL (fieldParam planet "st_rad"),
        toSQL (fieldParam planet "st_mass"),
        toSQL (fieldParam planet "disc_year"),
        toSQL (fieldParam planet "discoverymethod"),
        toSQL (fieldParam planet "ra"),
        toSQL (fieldParam planet "dec"),
        toSQL (defaultFlagParam planet) with
  | some pl_name, some hostname, some sy_dist, some pl_orbper, some pl_rade,
    some pl_bmasse, some pl_eqt, some pl_orbsmax, some pl_orbeccen,
    some st_spectype, some st_teff, some st_rad, some st_mass, some disc_year,
    some discoverymethod, some ra, some dec, some default_flag =>
      some ⟨pl_name, hostname, sy_dist, pl_orbper, pl_rade, pl_bmasse, pl_eqt,
            pl_orbsmax, pl_orbeccen, st_spectype, st_teff, st_rad, st_mass,
            disc_year, discoverymethod, ra, dec, default_flag⟩
  | _, _, _, _, _, _, _, _, _, _, _, _, _, _, _, _, _, _ => none

/-- The ways one INSERT can fail.  `dupName` and `nullName` both surface as
`sqlite3.IntegrityError` (UNIQUE resp. NOT NULL violation on `pl_name`);
`bindFail` surfaces as a generic exception (`sqlite3.InterfaceError`). -/
inductive InsErr where
  | dupName : InsErr
  | nullName : InsErr
  | bindFail : InsErr
deriving DecidableEq, Repr

/-- One attempted `cursor.execute('INSERT INTO planets ...')`: parameters are
bound first (failure → generic exception); then the `pl_name NOT NULL` and
`pl_name UNIQUE` constraints are enforced against the rows already in the
table; otherwise the bound row is inserted. -/
def insertPlanet (table : List Row) (planet : Record) : Except InsErr Row :=
  match bindRow planet with
  | none => .error .bindFail
  | some row =>
      if row.pl_name = .vnull then .error .nullName
      else if table.any (fun r => r.pl_name = row.pl_name) then .error .dupName
      else .ok row

/-- A console message emitted inside the per-record `except` handlers:
`dupMsg` is the `[WARNING] Skipped duplicate: ...` line of the
`IntegrityError` branch, `failMsg` the `[ERROR] Failed to insert ...` line of
the generic branch; each carries the `planet.get("pl_name")` it prints. -/
inductive LogEvent where
  | dupMsg (name : JValue) : LogEvent
  | failMsg (name : JValue) : LogEvent

/-- The Loader's running state: the table contents, the `inserted` and
`skipped` counters, the bounded console log actually emitted (`log`), and —
for stating bounded-logging properties — the full unbounded sequence of
messages the handlers would emit without the `skipped <= 5` guard
(`logAll`, one event per skipped record, in order). -/
structure MigState where
  table : List Row
  inserted : Nat
  skipped : Nat
  log : List LogEvent
  logAll : List LogEvent

/-- The message a failed insert prints: the `IntegrityError` handler emits the
`[WARNING] Skipped duplicate` line, the generic handler the `[ERROR] Failed to
insert` line, each showing `planet.get("pl_name")`. -/
def msgOf (planet : Record) : InsErr → LogEvent
  | .bindFail => .failMsg (fieldParam planet "pl_name")
  | _ => .dupMsg (fieldParam planet "pl_name")

/-- The body of the per-record `try/except`: a successful INSERT appends the
row and increments `inserted`; an `IntegrityError` or generic failure
increments `skipped` and prints its message only while the (already
incremented) skip counter is at most 5. -/
def processRecord (st : MigState) (planet : Record) : MigState :=
  match insertPlanet st.table planet with
  | .ok row =>
      { st with table := st.table ++ [row], inserted := st.inserted + 1 }
  | .error e =>
      { st with
          skipped := st.skipped + 1,
          log := if st.skipped + 1 ≤ 5 then st.log ++ [msgOf planet e]
                 else st.log,
          logAll := st.logAll ++ [msgOf planet e] }

/-- Fuelled evaluator for Python's `range(start, stop, step)` with a positive
step: emits `start` and continues from `start + step` while `start < stop`.
The fuel `stop - start` bounds the number of iterations since each iteration
advances `start` by at least 1. -/
def rangeStepGo (fuel start stop step : Nat) : List Nat :=
  match fuel with
  | 0 => []
  | fuel + 1 =>
      if 0 < step ∧ start < stop then
        start :: rangeStepGo fuel (start + step) stop step
      else []

/-- Python `range(start, stop, step)` for a positive `step` (an empty range
when `step = 0`, where Python would raise `ValueError`). -/
def rangeStep (start stop step : Nat) : List Nat :=
  rangeStepGo (stop - start) start stop step

/-- `scripts/test.py`'s `paginate(data, batch_size)` generator (also the shape
of the Loader's own batch loop): for `i in range(0, len(data), batch_size)`,
yield the slice `data[i:i + batch_size]`. -/
def paginate {α : Type} (data : List α) (batchSize : Nat) : List (List α) :=
  (rangeStep 0 data.length batchSize).map
    (fun i => (data.drop i).take batchSize)

/-- `create_database`: whatever the destination database held before, the
`planets` table is dropped and recreated empty. -/
def create_database (priorTable : List Row) : List Row :=
  let _ := priorTable
  []

/-- The initial state of a run over a freshly created database. -/
def initState (priorTable : List Row) : MigState :=
  { table := create_database priorTable, inserted := 0, skipped := 0,
    log := [], logAll := [] }

/-- `migrate_json_to_sqlite`: create the database (dropping any existing
`planets` table), then process the input array in batches of 100, each batch
record by record.  `priorTable` is the `planets` table content persisted by
any earlier run against the same database file. -/
def migrate_json_to_sqlite (planets : List Record) (priorTable : List Row) :
    MigState :=
  (paginate planets 100).foldl
    (fun st batch => batch.foldl processRecord st) (initState priorTable)

/-- Processing a list of records one by one (the batch structure flattened). -/
def processAll (st : MigState) (planets : List Record) : MigState :=
  planets.foldl processRecord st

/-- Input-only classification of the records the Loader will reject, folding
over the input while tracking the set of `pl_name` values already accepted:
the first component counts records rejected because their (non-null, bindable)
name was already taken — duplicate names — and the second counts malformed
records: those whose parameters fail to bind or whose name is null/absent. -/
def classify : List Record → List SQLValue → Nat × Nat
  | [], _ => (0, 0)
  | p :: rest, seen =>
      match bindRow p with
      | none => ((classify rest seen).1, (classify rest seen).2 + 1)
      | some row =>
          if row.pl_name = .vnull then
            ((classify rest seen).1, (classify rest seen).2 + 1)
          else if row.pl_name ∈ seen then
            ((classify rest seen).1 + 1, (classify rest seen).2)
          else classify rest (row.pl_name :: seen)

/-- Number of duplicate-name records in an input array. -/
def dupCount (planets : List Record) : Nat := (classify planets []).1

/-- Number of malformed records in an input array. -/
def malCount (planets : List Record) : Nat := (classify planets []).2

/-!  Post-load sanity report: `SELECT MIN(disc_year), MAX(disc_year) FROM
planets WHERE disc_year IS NOT NULL`.  SQLite compares stored values by
storage class first (NULL < numbers < text), then within the class. -/

/-- SQLite's value ordering as used by MIN/MAX aggregation, restricted to the
storage classes a bound parameter can produce. -/
def sqlLe : SQLValue → SQLValue → Bool
  | .vnull, _ => true
  | .vint _, .vnull => false
  | .vint a, .vint b => a ≤ b
  | .vint _, .vtext _ => true
  | .vtext _, .vnull => false
  | .vtext _, .vint _ => false
  | .vtext a, .vtext b => a ≤ b

/-- The `disc_year` values of the rows retained by
`WHERE disc_year IS NOT NULL`, in table order. -/
def nonNullYears (table : List Row) : List SQLValue :=
  (table.map (fun r => r.disc_year)).filter (fun v => v ≠ .vnull)

/-- Aggregation scan keeping the least value seen so far. -/
def sqlMinGo (m : SQLValue) (l : List SQLValue) : SQLValue :=
  l.foldl (fun acc v => if sqlLe v acc then v else acc) m

/-- Aggregation scan keeping the greatest value seen so far. -/
def sqlMaxGo (m : SQLValue) (l : List SQLValue) : SQLValue :=
  l.foldl (fun acc v => if sqlLe acc v then v else acc) m

/-- `MIN` over a column: NULL result on an empty set, else the scan minimum. -/
def sqlMin : List SQLValue → Option SQLValue
  | [] => none
  | v :: rest => some (sqlMinGo v rest)

/-- `MAX` over a column: NULL result on an empty set, else the scan maximum. -/
def sqlMax : List SQLValue → Option SQLValue
  | [] => none
  | v :: rest => some (sqlMaxGo v rest)

/-- The pair of figures printed by the `[STATS] Discovery years:` line. -/
def discYearReport (table : List Row) : Option SQLValue × Option SQLValue :=
  (sqlMin (nonNullYears table), sqlMax (nonNullYears table))

/-!  Schema-level facts of `create_database`: the column list of the CREATE
TABLE statement and the index list of the seven CREATE INDEX statements. -/

/-- The columns of `CREATE TABLE planets (...)`, in source order. -/
def planetsColumns : List String :=
  ["id", "pl_name", "hostname", "sy_dist", "pl_orbper", "pl_rade",
   "pl_bmasse", "pl_eqt", "pl_orbsmax", "pl_orbeccen", "st_spectype",
   "st_teff", "st_rad", "st_mass", "disc_year", "discoverymethod", "ra",
   "dec", "default_flag", "created_at"]

/-- The 18 data columns named by the INSERT statement, in source order. -/
def insertColumns : List String :=
  ["pl_name", "hostname", "sy_dist", "pl_orbper", "pl_rade", "pl_bmasse",
   "pl_eqt", "pl_orbsmax", "pl_orbeccen", "st_spectype", "st_teff", "st_rad",
   "st_mass", "disc_year", "discoverymethod", "ra", "dec", "default_flag"]

/-- The seven secondary indexes created by `create_database`:
(index name, indexed column). -/
def planetsIndexes : List (String × String) :=
  [("idx_pl_name", "pl_name"), ("idx_disc_year", "disc_year"),
   ("idx_discoverymethod", "discoverymethod"), ("idx_pl_rade", "pl_rade"),
   ("idx_pl_bmasse", "pl_bmasse"), ("idx_st_teff", "st_teff"),
   ("idx_sy_dist", "sy_dist")]

/-!  The Fetcher (`scripts/test.py`). -/

/-- The one HTTP response `requests.get` returns to the Fetcher: its status
code, its text body, and the JSON data its body parses to (used only on the
200 path, where `resp.json()` is called). -/
structure HTTPResponse where
  status : Nat
  text : String
  json : List JValue

/-- `fetch_all_exoplanets`, from the response on: a non-200 status raises
`RuntimeError(f"HTTP \x7bresp.status_code\x7d: \x7bresp.text[:200]\x7d")` —
modelled as `.error` with that exact message — with no retry; a 200 status
returns the parsed body. -/
def fetch_all_exoplanets (resp : HTTPResponse) : Except String (List JValue) :=
  if resp.status ≠ 200 then
    .error ("HTTP " ++ toString resp.status ++ ": " ++ resp.text.take 200)
  else .ok resp.json

/-- The `__main__` block of `scripts/test.py`: the output file
`Exoplanate.json` is written (with the fetched data) only after
`fetch_all_exoplanets` returns; a raised error reaches top level first, so
nothing is written.  `none` = no file written. -/
def fetcherMain (resp : HTTPResponse) : Option (List JValue) :=
  match fetch_all_exoplanets resp with
  | .error _ => none
  | .ok planets => some planets

/-- `sub` occurs as a contiguous substring of `s`. -/
def strContains (s sub : String) : Prop := ∃ a b, s = a ++ sub ++ b

/-!  Concrete sample inputs, used to evaluate the definitions at witnesses. -/

/-- A sample record with a name and a discovery year. -/
def samplePlanetA : Record :=
  [("pl_name", .jstr "Kepler-22 b"), ("disc_year", .jnum 2011)]

/-- A second sample record re-using the name of `samplePlanetA`. -/
def samplePlanetB : Record :=
  [("pl_name", .jstr "Kepler-22 b"), ("hostname", .jstr "Kepler-22")]

/-- The row `samplePlanetA` binds to. -/
def sampleRowA : Row :=
  ⟨.vtext "Kepler-22 b", .vnull, .vnull, .vnull, .vnull, .vnull, .vnull,
   .vnull, .vnull, .vnull, .vnull, .vnull, .vnull, .vint 2011, .vnull,
   .vnull, .vnull, .vint 1⟩

/-- The row `samplePlanetB` binds to. -/
def sampleRowB : Row :=
  ⟨.vtext "Kepler-22 b", .vtext "Kepler-22", .vnull, .vnull, .vnull, .vnull,
   .vnull, .vnull, .vnull, .vnull, .vnull, .vnull, .vnull, .vnull, .vnull,
   .vnull, .vnull, .vint 1⟩

/-- A loader state in which `samplePlanetA`'s row is already persisted. -/
def sampleState : MigState :=
  { table := [sampleRowA], inserted := 1, skipped := 0, log := [],
    logAll := [] }

/-- A sample record carrying only a name. -/
def sampleLonePlanet : Record := [("pl_name", .jstr "TRAPPIST-1 e")]

/-- The row `sampleLonePlanet` binds to: every absent field is NULL except
the defaulted `default_flag`. -/
def sampleLoneRow : Row :=
  ⟨.vtext "TRAPPIST-1 e", .vnull, .vnull, .vnull, .vnull, .vnull, .vnull,
   .vnull, .vnull, .vnull, .vnull, .vnull, .vnull, .vnull, .vnull, .vnull,
   .vnull, .vint 1⟩

/-- A sample input whose records have years 2011, none, and 1995. -/
def sampleYearPlanets : List Record :=
  [[("pl_name", .jstr "A"), ("disc_year", .jnum 2011)],
   [("pl_name", .jstr "B")],
   [("pl_name", .jstr "C"), ("disc_year", .jnum 1995)]]

/-- Is this console message a `[WARNING] Skipped duplicate` line? -/
def isDupMsg : LogEvent → Bool
  | .dupMsg _ => true
  | .failMsg _ => false

/-- Is this console message an `[ERROR] Failed to insert` line? -/
def isFailMsg : LogEvent → Bool
  | .dupMsg _ => false
  | .failMsg _ => true

/-!  Lemmas about `rangeStep` and `paginate`. -/

lemma rangeStepGo_of_stop (f start stop step : Nat)
    (h : ¬ (0 < step ∧ start < stop)) : rangeStepGo f start stop step = [] := by
  cases f with
  | zero => rfl
  | succ f => simp [rangeStepGo, h]

lemma rangeStepGo_congr (step : Nat) :
    ∀ (f1 f2 start stop : Nat), stop - start ≤ f1 → stop - start ≤ f2 →
      rangeStepGo f1 start stop step = rangeStepGo f2 start stop step := by
  intro f1
  induction f1 with
  | zero =>
      intro f2 start stop h1 h2
      have hns : ¬ (0 < step ∧ start < stop) := by omega
      rw [rangeStepGo_of_stop _ _ _ _ hns, rangeStepGo_of_stop _ _ _ _ hns]
  | succ f1 ih =>
      intro f2 start stop h1 h2
      by_cases hc : 0 < step ∧ start < stop
      · cases f2 with
        | zero => omega
        | succ f2 =>
            simp only [rangeStepGo, hc, if_pos, and_self]
            exact congrArg _ (ih f2 (start + step) stop (by omega) (by omega))
      · rw [rangeStepGo_of_stop _ _ _ _ hc, rangeStepGo_of_stop _ _ _ _ hc]

lemma rangeStep_eq_nil (start stop step : Nat)
    (h : ¬ (0 < step ∧ start < stop)) : rangeStep start stop step = [] :=
  rangeStepGo_of_stop _ _ _ _ h

lemma rangeStep_eq_cons (start stop step : Nat) (hstep : 0 < step)
    (hlt : start < stop) :
    rangeStep start stop step = start :: rangeStep (start + step) stop step := by
  unfold rangeStep
  cases hfs : stop - start with
  | zero => omega
  | succ n =>
      simp only [rangeStepGo, if_pos (And.intro hstep hlt)]
      exact congrArg _ (rangeStepGo_congr step n (stop - (start + step))
        (start + step) stop (by omega) (by omega))

lemma rangeStep_shift (step : Nat) :
    ∀ (n s t a : Nat), t - s ≤ n →
      rangeStep (s + a) (t + a) step = (rangeStep s t step).map (fun i => i + a) := by
  intro n
  induction n with
  | zero =>
      intro s t a h
      rw [rangeStep_eq_nil _ _ _ (by omega), rangeStep_eq_nil _ _ _ (by omega)]
      rfl
  | succ n ih =>
      intro s t a h
      by_cases hc : 0 < step ∧ s < t
      · rw [rangeStep_eq_cons _ _ _ hc.1 hc.2,
            rangeStep_eq_cons _ _ _ hc.1 (by omega)]
        simp only [List.map_cons]
        have harr : s + a + step = s + step + a := by omega
        rw [harr, ih (s + step) t a (by omega)]
      · rw [rangeStep_eq_nil _ _ _ hc, rangeStep_eq_nil _ _ _ (by omega)]
        rfl

lemma paginate_nil {α : Type} (k : Nat) : paginate ([] : List α) k = [] := by
  simp [paginate, rangeStep, rangeStepGo]

lemma paginate_cons {α : Type} (d : List α) (k : Nat) (hk : 0 < k)
    (hd : d ≠ []) : paginate d k = d.take k :: paginate (d.drop k) k := by
  have hlen : 0 < d.length := List.length_pos.mpr hd
  unfold paginate
  rw [rangeStep_eq_cons 0 d.length k hk hlen]
  simp only [List.map_cons, List.drop_zero, List.length_drop]
  refine congrArg _ ?_
  by_cases hkl : k < d.length
  · have h1 : d.length = (d.length - k) + k := by omega
    have hs := rangeStep_shift k (d.length - k) 0 (d.length - k) k (by omega)
    rw [← h1] at hs
    rw [hs, List.map_map]
    refine List.map_congr_left ?_
    intro i _
    simp only [Function.comp_apply, List.drop_drop]
    rw [show i + k = k + i by omega]
  · rw [rangeStep_eq_nil _ _ _ (by omega), rangeStep_eq_nil _ _ _ (by omega)]
    rfl

lemma paginate_flatten_aux {α : Type} (k : Nat) (hk : 0 < k) :
    ∀ (n : Nat) (d : List α), d.length ≤ n → (paginate d k).flatten = d := by
  intro n
  induction n with
  | zero =>
      intro d h
      have : d = [] := List.length_eq_zero.mp (by omega)
      subst this
      rw [paginate_nil]
      rfl
  | succ n ih =>
      intro d h
      by_cases hd : d = []
      · subst hd; rw [paginate_nil]; rfl
      · have hlen : 0 < d.length := List.length_pos.mpr hd
        rw [paginate_cons d k hk hd]
        simp only [List.flatten_cons]
        rw [ih (d.drop k) (by simp only [List.length_drop]; omega)]
        exact List.take_append_drop k d

lemma paginate_flatten {α : Type} (d : List α) (k : Nat) (hk : 0 < k) :
    (paginate d k).flatten = d :=
  paginate_flatten_aux k hk d.length d le_rfl

lemma paginate_chunk_le {α : Type} (k : Nat) (hk : 0 < k) :
    ∀ (n : Nat) (d : List α), d.length ≤ n →
      ∀ c ∈ paginate d k, c.length ≤ k := by
  intro n
  induction n with
  | zero =>
      intro d h c hc
      have : d = [] := List.length_eq_zero.mp (by omega)
      subst this
      rw [paginate_nil] at hc
      cases hc
  | succ n ih =>
      intro d h c hc
      by_cases hd : d = []
      · subst hd; rw [paginate_nil] at hc; cases hc
      · rw [paginate_cons d k hk hd] at hc
        cases hc with
        | head => simp only [List.length_take]; omega
        | tail _ hmem =>
            exact ih (d.drop k) (by
              simp only [List.length_drop]
              have : 0 < d.length := List.length_pos.mpr hd
              omega) c hmem

lemma paginate_chunk_full {α : Type} (k : Nat) (hk : 0 < k) :
    ∀ (n : Nat) (d : List α), d.length ≤ n →
      ∀ c ∈ (paginate d k).dropLast, c.length = k := by
  intro n
  induction n with
  | zero =>
      intro d h c hc
      have : d = [] := List.length_eq_zero.mp (by omega)
      subst this
      rw [paginate_nil] at hc
      cases hc
  | succ n ih =>
      intro d h c hc
      by_cases hd : d = []
      · subst hd; rw [paginate_nil] at hc; cases hc
      · rw [paginate_cons d k hk hd] at hc
        by_cases hrest : paginate (d.drop k) k = []
        · rw [hrest] at hc
          simp only [List.dropLast_single] at hc
          cases hc
        · rw [List.dropLast_cons_of_ne_nil hrest] at hc
          cases hc with
          | head =>
              have hdk : d.drop k ≠ [] := by
                intro hnil
                exact hrest (by rw [hnil, paginate_nil])
              have : 0 < (d.drop k).length := List.length_pos.mpr hdk
              simp only [List.length_drop] at this
              simp only [List.length_take]
              omega
          | tail _ hmem =>
              exact ih (d.drop k) (by
                simp only [List.length_drop]
                have : 0 < d.length := List.length_pos.mpr hd
                omega) c hmem

/-- The Loader's batched fold equals the record-by-record fold. -/
lemma migrate_eq_processAll (planets : List Record) (priorTable : List Row) :
    migrate_json_to_sqlite planets priorTable =
      processAll (initState priorTable) planets := by
  unfold migrate_json_to_sqlite processAll
  have h := List.foldl_flatten processRecord (initState priorTable)
    (paginate planets 100)
  rw [paginate_flatten planets 100 (by omega)] at h
  exact h.symm

/-!  The SQLite value order used by MIN/MAX is a total preorder. -/

lemma sqlLe_refl (v : SQLValue) : sqlLe v v = true := by
  cases v <;> simp [sqlLe]

lemma sqlLe_total (a b : SQLValue) : sqlLe a b = true ∨ sqlLe b a = true := by
  cases a <;> cases b <;> simp [sqlLe]
  · omega
  · exact le_total _ _

lemma sqlLe_trans (a b c : SQLValue) (h1 : sqlLe a b = true)
    (h2 : sqlLe b c = true) : sqlLe a c = true := by
  cases a <;> cases b <;> cases c <;> simp_all [sqlLe]
  · omega
  · exact le_trans h1 h2

lemma sqlMinGo_spec :
    ∀ (l : List SQLValue) (m : SQLValue),
      (sqlMinGo m l = m ∨ sqlMinGo m l ∈ l) ∧
        sqlLe (sqlMinGo m l) m = true ∧
        ∀ y ∈ l, sqlLe (sqlMinGo m l) y = true := by
  intro l
  induction l with
  | nil => intro m; exact ⟨Or.inl rfl, sqlLe_refl m, by intro y hy; cases hy⟩
  | cons v l ih =>
      intro m
      have hgo : sqlMinGo m (v :: l) = sqlMinGo (if sqlLe v m then v else m) l :=
        rfl
      obtain ⟨hmem, hle, hall⟩ := ih (if sqlLe v m then v else m)
      have hlem : sqlLe (if sqlLe v m then v else m) m = true := by
        by_cases h : sqlLe v m = true
        · rw [if_pos h]; exact h
        · rw [if_neg h]; exact sqlLe_refl m
      have hlev : sqlLe (if sqlLe v m then v else m) v = true := by
        by_cases h : sqlLe v m = true
        · rw [if_pos h]; exact sqlLe_refl v
        · rw [if_neg h]
          rcases sqlLe_total v m with hvm | hmv
          · exact absurd hvm h
          · exact hmv
      refine ⟨?_, ?_, ?_⟩
      · rw [hgo]
        rcases hmem with hm | hm
        · rw [hm]
          by_cases h : sqlLe v m = true
          · rw [if_pos h]; exact Or.inr (List.mem_cons_self v l)
          · rw [if_neg h]; exact Or.inl rfl
        · exact Or.inr (List.mem_cons_of_mem v hm)
      · rw [hgo]
        exact sqlLe_trans _ _ _ hle hlem
      · intro y hy
        rw [hgo]
        rcases List.mem_cons.mp hy with hv | hl
        · subst hv
          exact sqlLe_trans _ _ _ hle hlev
        · exact hall y hl

lemma sqlMaxGo_spec :
    ∀ (l : List SQLValue) (m : SQLValue),
      (sqlMaxGo m l = m ∨ sqlMaxGo m l ∈ l) ∧
        sqlLe m (sqlMaxGo m l) = true ∧
        ∀ y ∈ l, sqlLe y (sqlMaxGo m l) = true := by
  intro l
  induction l with
  | nil => intro m; exact ⟨Or.inl rfl, sqlLe_refl m, by intro y hy; cases hy⟩
  | cons v l ih =>
      intro m
      have hgo : sqlMaxGo m (v :: l) = sqlMaxGo (if sqlLe m v then v else m) l :=
        rfl
      obtain ⟨hmem, hle, hall⟩ := ih (if sqlLe m v then v else m)
      have hlem : sqlLe m (if sqlLe m v then v else m) = true := by
        by_cases h : sqlLe m v = true
        · rw [if_pos h]; exact h
        · rw [if_neg h]; exact sqlLe_refl m
      have hlev : sqlLe v (if sqlLe m v then v else m) = true := by
        by_cases h : sqlLe m v = true
        · rw [if_pos h]; exact sqlLe_refl v
        · rw [if_neg h]
          rcases sqlLe_total m v with hmv | hvm
          · exact absurd hmv h
          · exact hvm
      refine ⟨?_, ?_, ?_⟩
      · rw [hgo]
        rcases hmem with hm | hm
        · rw [hm]
          by_cases h : sqlLe m v = true
          · rw [if_pos h]; exact Or.inr (List.mem_cons_self v l)
          · rw [if_neg h]; exact Or.inl rfl
        · exact Or.inr (List.mem_cons_of_mem v hm)
      · rw [hgo]
        exact sqlLe_trans _ _ _ hlem hle
      · intro y hy
        rw [hgo]
        rcases List.mem_cons.mp hy with hv | hl
        · subst hv
          exact sqlLe_trans _ _ _ hlev hle
        · exact hall y hl

lemma sqlMin_spec (l : List SQLValue) (h : l ≠ []) :
    ∃ m, sqlMin l = some m ∧ m ∈ l ∧ ∀ y ∈ l, sqlLe m y = true := by
  cases l with
  | nil => exact absurd rfl h
  | cons v l =>
      obtain ⟨hmem, hle, hall⟩ := sqlMinGo_spec l v
      refine ⟨sqlMinGo v l, rfl, ?_, ?_⟩
      · rcases hmem with hm | hm
        · rw [hm]; exact List.mem_cons_self v l
        · exact List.mem_cons_of_mem v hm
      · intro y hy
        rcases List.mem_cons.mp hy with hv | hl
        · subst hv; exact hle
        · exact hall y hl

lemma sqlMax_spec (l : List SQLValue) (h : l ≠ []) :
    ∃ m, sqlMax l = some m ∧ m ∈ l ∧ ∀ y ∈ l, sqlLe y m = true := by
  cases l with
  | nil => exact absurd rfl h
  | cons v l =>
      obtain ⟨hmem, hle, hall⟩ := sqlMaxGo_spec l v
      refine ⟨sqlMaxGo v l, rfl, ?_, ?_⟩
      · rcases hmem with hm | hm
        · rw [hm]; exact List.mem_cons_self v l
        · exact List.mem_cons_of_mem v hm
      · intro y hy
        rcases List.mem_cons.mp hy with hv | hl
        · subst hv; exact hle
        · exact hall y hl

/-!  Inversion of a successful parameter binding. -/

lemma bindRow_fields (planet : Record) (row : Row)
    (hb : bindRow planet = some row) :
    toSQL (fieldParam planet "pl_name") = some row.pl_name ∧
    toSQL (fieldParam planet "hostname") = some row.hostname ∧
    toSQL (fieldParam planet "sy_dist") = some row.sy_dist ∧
    toSQL (fieldParam planet "pl_orbper") = some row.pl_orbper ∧
    toSQL (fieldParam planet "pl_rade") = some row.pl_rade ∧
    toSQL (fieldParam planet "pl_bmasse") = some row.pl_bmasse ∧
    toSQL (fieldParam planet "pl_eqt") = some row.pl_eqt ∧
    toSQL (fieldParam planet "pl_orbsmax") = some row.pl_orbsmax ∧
    toSQL (fieldParam planet "pl_orbeccen") = some row.pl_orbeccen ∧
    toSQL (fieldParam planet "st_spectype") = some row.st_spectype ∧
    toSQL (fieldParam planet "st_teff") = some row.st_teff ∧
    toSQL (fieldParam planet "st_rad") = some row.st_rad ∧
    toSQL (fieldParam planet "st_mass") = some row.st_mass ∧
    toSQL (fieldParam planet "disc_year") = some row.disc_year ∧
    toSQL (fieldParam planet "discoverymethod") = some row.discoverymethod ∧
    toSQL (fieldParam planet "ra") = some row.ra ∧
    toSQL (fieldParam planet "dec") = some row.dec ∧
    toSQL (defaultFlagParam planet) = some row.default_flag := by
  unfold bindRow at hb
  split at hb
  · rename_i x1 x2 x3 x4 x5 x6 x7 x8 x9 x10 x11 x12 x13 x14 x15 x16 x17 x18
      h1 h2 h3 h4 h5 h6 h7 h8 h9 h10 h11 h12 h13 h14 h15 h16 h17 h18
    cases hb
    exact ⟨h1, h2, h3, h4, h5, h6, h7, h8, h9, h10, h11, h12, h13, h14, h15,
           h16, h17, h18⟩
  · cases hb

/-- An absent key binds to SQL NULL: `planet.get(k)` is `None`, which binds
as NULL. -/
lemma toSQL_absent (planet : Record) (k : String) (v : SQLValue)
    (hget : getField planet k = none)
    (h : toSQL (fieldParam planet k) = some v) : v = .vnull := by
  simp only [fieldParam, hget, toSQL, Option.some.injEq] at h
  exact h.symm

/-- An absent `default_flag` key binds to the integer 1. -/
lemma toSQL_absent_flag (planet : Record) (v : SQLValue)
    (hget : getField planet "default_flag" = none)
    (h : toSQL (defaultFlagParam planet) = some v) : v = .vint 1 := by
  simp only [defaultFlagParam, hget, toSQL, Option.some.injEq] at h
  exact h.symm

/-!  Per-record and whole-run invariants of the Loader. -/

lemma insertPlanet_ok_inv (table : List Row) (planet : Record) (row : Row)
    (h : insertPlanet table planet = .ok row) :
    bindRow planet = some row ∧ row.pl_name ≠ .vnull ∧
      table.any (fun r => r.pl_name = row.pl_name) = false := by
  unfold insertPlanet at h
  split at h
  · cases h
  · rename_i r hb
    split at h
    · cases h
    · rename_i hnull
      split at h
      · cases h
      · rename_i hany
        cases h
        exact ⟨hb, hnull, by simpa using hany⟩

lemma processRecord_ok (st : MigState) (planet : Record) (row : Row)
    (h : insertPlanet st.table planet = .ok row) :
    processRecord st planet =
      { st with table := st.table ++ [row], inserted := st.inserted + 1 } := by
  unfold processRecord
  rw [h]

lemma processRecord_error (st : MigState) (planet : Record) (e : InsErr)
    (h : insertPlanet st.table planet = .error e) :
    processRecord st planet =
      { st with
          skipped := st.skipped + 1,
          log := if st.skipped + 1 ≤ 5 then st.log ++ [msgOf planet e]
                 else st.log,
          logAll := st.logAll ++ [msgOf planet e] } := by
  unfold processRecord
  rw [h]

lemma processRecord_table_error (st : MigState) (planet : Record) (e : InsErr)
    (h : insertPlanet st.table planet = .error e) :
    (processRecord st planet).table = st.table := by
  rw [processRecord_error st planet e h]

lemma processAll_cons (st : MigState) (p : Record) (l : List Record) :
    processAll st (p :: l) = processAll (processRecord st p) l := rfl

lemma processRecord_counts (st : MigState) (planet : Record) :
    (processRecord st planet).inserted + (processRecord st planet).skipped
      = st.inserted + st.skipped + 1 := by
  unfold processRecord
  cases insertPlanet st.table planet <;> simp <;> omega

lemma processRecord_table_len (st : MigState) (planet : Record) :
    (processRecord st planet).table.length + st.inserted
      = st.table.length + (processRecord st planet).inserted := by
  unfold processRecord
  cases insertPlanet st.table planet <;> simp
  all_goals omega

lemma processAll_counts :
    ∀ (l : List Record) (st : MigState),
      (processAll st l).inserted + (processAll st l).skipped
        = st.inserted + st.skipped + l.length := by
  intro l
  induction l with
  | nil => intro st; simp [processAll]
  | cons p l ih =>
      intro st
      rw [processAll_cons, ih (processRecord st p), processRecord_counts]
      simp only [List.length_cons]
      omega

lemma processAll_table_len :
    ∀ (l : List Record) (st : MigState),
      (processAll st l).table.length + st.inserted
        = st.table.length + (processAll st l).inserted := by
  intro l
  induction l with
  | nil => intro st; simp [processAll]
  | cons p l ih =>
      intro st
      rw [processAll_cons]
      have h1 := ih (processRecord st p)
      have h2 := processRecord_table_len st p
      omega

lemma processRecord_log (st : MigState) (planet : Record)
    (h1 : st.log = st.logAll.take 5) (h2 : st.logAll.length = st.skipped) :
    (processRecord st planet).log = (processRecord st planet).logAll.take 5 ∧
      (processRecord st planet).logAll.length
        = (processRecord st planet).skipped := by
  unfold processRecord
  cases insertPlanet st.table planet with
  | ok row => exact ⟨h1, h2⟩
  | error e =>
      simp only [List.length_append, List.length_singleton]
      refine ⟨?_, by omega⟩
      by_cases hle : st.skipped + 1 ≤ 5
      · rw [if_pos hle,
            List.take_of_length_le (l := st.logAll ++ [msgOf planet e])
              (by simp only [List.length_append, List.length_singleton]; omega),
            h1, List.take_of_length_le (by omega)]
      · rw [if_neg hle,
            List.take_append_of_le_length (by omega), h1]

lemma processAll_log :
    ∀ (l : List Record) (st : MigState),
      st.log = st.logAll.take 5 → st.logAll.length = st.skipped →
        (processAll st l).log = (processAll st l).logAll.take 5 ∧
          (processAll st l).logAll.length = (processAll st l).skipped := by
  intro l
  induction l with
  | nil => intro st h1 h2; exact ⟨h1, h2⟩
  | cons p l ih =>
      intro st h1 h2
      rw [processAll_cons]
      have h := processRecord_log st p h1 h2
      exact ih (processRecord st p) h.1 h.2

lemma insertPlanet_bindFail (table : List Row) (planet : Record)
    (hb : bindRow planet = none) :
    insertPlanet table planet = .error .bindFail := by
  simp only [insertPlanet, hb]

lemma insertPlanet_nullName (table : List Row) (planet : Record) (row : Row)
    (hb : bindRow planet = some row) (hn : row.pl_name = .vnull) :
    insertPlanet table planet = .error .nullName := by
  simp only [insertPlanet, hb]
  rw [if_pos hn]

lemma insertPlanet_dupName (table : List Row) (planet : Record) (row : Row)
    (hb : bindRow planet = some row) (hn : ¬ row.pl_name = .vnull)
    (ha : table.any (fun r => r.pl_name = row.pl_name) = true) :
    insertPlanet table planet = .error .dupName := by
  simp only [insertPlanet, hb]
  rw [if_neg hn, if_pos ha]

lemma insertPlanet_ok (table : List Row) (planet : Record) (row : Row)
    (hb : bindRow planet = some row) (hn : ¬ row.pl_name = .vnull)
    (ha : table.any (fun r => r.pl_name = row.pl_name) = false) :
    insertPlanet table planet = .ok row := by
  simp only [insertPlanet, hb]
  rw [if_neg hn, if_neg (by simp [ha])]

lemma processAll_classify :
    ∀ (l : List Record) (st : MigState) (seen : List SQLValue),
      (∀ v : SQLValue, (∃ r ∈ st.table, r.pl_name = v) ↔ v ∈ seen) →
      (processAll st l).table.length + (classify l seen).1 + (classify l seen).2
        = st.table.length + l.length := by
  intro l
  induction l with
  | nil => intro st seen _; simp [processAll, classify]
  | cons p l ih =>
      intro st seen hiff
      rw [processAll_cons]
      cases hb : bindRow p with
      | none =>
          have hins := insertPlanet_bindFail st.table p hb
          have htab := processRecord_table_error st p _ hins
          have hlen : (processRecord st p).table.length = st.table.length := by
            rw [htab]
          have hih := ih (processRecord st p) seen
            (by intro v; rw [htab]; exact hiff v)
          simp only [classify, hb, List.length_cons]
          omega
      | some row =>
          by_cases hn : row.pl_name = SQLValue.vnull
          · have hins := insertPlanet_nullName st.table p row hb hn
            have htab := processRecord_table_error st p _ hins
            have hlen : (processRecord st p).table.length = st.table.length := by
              rw [htab]
            have hih := ih (processRecord st p) seen
              (by intro v; rw [htab]; exact hiff v)
            simp only [classify, hb, if_pos hn, List.length_cons]
            omega
          · by_cases hs : row.pl_name ∈ seen
            · obtain ⟨r, hr, hrname⟩ := (hiff row.pl_name).mpr hs
              have ha : st.table.any (fun q => q.pl_name = row.pl_name) = true :=
                List.any_eq_true.mpr ⟨r, hr, by simp [hrname]⟩
              have hins := insertPlanet_dupName st.table p row hb hn ha
              have htab := processRecord_table_error st p _ hins
              have hlen : (processRecord st p).table.length = st.table.length := by
                rw [htab]
              have hih := ih (processRecord st p) seen
                (by intro v; rw [htab]; exact hiff v)
              simp only [classify, hb, if_neg hn, if_pos hs, List.length_cons]
              omega
            · have ha : st.table.any (fun q => q.pl_name = row.pl_name) = false := by
                refine List.any_eq_false.mpr ?_
                intro r hr hcontra
                simp only [decide_eq_true_eq] at hcontra
                exact hs ((hiff row.pl_name).mp ⟨r, hr, hcontra⟩)
              have hins := insertPlanet_ok st.table p row hb hn ha
              have htab := processRecord_ok st p row hins
              have hlen : (processRecord st p).table.length
                  = st.table.length + 1 := by
                rw [htab]
                simp
              have hih := ih (processRecord st p) (row.pl_name :: seen) ?_
              · simp only [classify, hb, if_neg hn, if_neg hs, List.length_cons]
                omega
              · intro v
                rw [htab]
                simp only [List.mem_append, List.mem_singleton, List.mem_cons]
                constructor
                · rintro ⟨r, hr | hr | hr, hname⟩
                  · exact Or.inr ((hiff v).mp ⟨r, hr, hname⟩)
                  · subst hr; exact Or.inl hname.symm
                  · cases hr
                · rintro (hv | hv)
                  · exact ⟨row, Or.inr (Or.inl rfl), hv.symm⟩
                  · obtain ⟨r, hr, hname⟩ := (hiff v).mpr hv
                    exact ⟨r, Or.inl hr, hname⟩

lemma processAll_nodup :
    ∀ (l : List Record) (st : MigState),
      (st.table.map (fun r => r.pl_name)).Nodup →
        ((processAll st l).table.map (fun r => r.pl_name)).Nodup := by
  intro l
  induction l with
  | nil => intro st h; exact h
  | cons p l ih =>
      intro st h
      rw [processAll_cons]
      refine ih (processRecord st p) ?_
      cases hins : insertPlanet st.table p with
      | error e => rw [processRecord_table_error st p e hins]; exact h
      | ok row =>
          rw [processRecord_ok st p row hins]
          obtain ⟨-, -, hany⟩ := insertPlanet_ok_inv st.table p row hins
          simp only [List.map_append, List.map_cons, List.map_nil]
          rw [List.nodup_append]
          refine ⟨h, List.nodup_singleton _, ?_⟩
          intro v hv hv'
          simp only [List.mem_singleton] at hv'
          subst hv'
          obtain ⟨r, hr, hrname⟩ := List.mem_map.mp hv
          have := List.any_eq_false.mp (by rw [hany]) r hr
          simp only [decide_eq_true_eq] at this
          exact this hrname

/-!  The claims. -/

/-- Claim C1: for every valid input array, the number of rows in the
destination table after the run equals the input length minus the number of
records with duplicate names minus the number of malformed records; each
record inserts at most one row (the row count equals the inserted counter). -/
theorem claim_C1_row_count (planets : List Record) (priorTable : List Row) :
    (migrate_json_to_sqlite planets priorTable).table.length
        = planets.length - dupCount planets - malCount planets ∧
      (migrate_json_to_sqlite planets priorTable).inserted
        = (migrate_json_to_sqlite planets priorTable).table.length := by
  rw [migrate_eq_processAll]
  have h0 : (initState priorTable).table.length = 0 := rfl
  have h1 : (initState priorTable).inserted = 0 := rfl
  have hcl := processAll_classify planets (initState priorTable) []
    (by intro v; simp [initState, create_database])
  have htl := processAll_table_len planets (initState priorTable)
  unfold dupCount malCount
  omega

/-- Claim C2: `pl_name` is unique among persisted rows after any run, and a
record whose (bindable, non-null) name is already present in the table is
rejected and counted as a skip, leaving the table — hence the first-seen row
for that name — unchanged, with nothing overwritten. -/
theorem claim_C2_unique_names :
    (∀ (planets : List Record) (priorTable : List Row),
        ((migrate_json_to_sqlite planets priorTable).table.map
            (fun r => r.pl_name)).Nodup) ∧
      ∀ (st : MigState) (planet : Record) (row : Row),
        bindRow planet = some row → row.pl_name ≠ .vnull →
        (∃ r ∈ st.table, r.pl_name = row.pl_name) →
        (processRecord st planet).table = st.table ∧
          (processRecord st planet).skipped = st.skipped + 1 ∧
          (processRecord st planet).inserted = st.inserted := by
  constructor
  · intro planets priorTable
    rw [migrate_eq_processAll]
    exact processAll_nodup planets (initState priorTable)
      (by simp [initState, create_database])
  · intro st planet row hb hn hex
    have ha : st.table.any (fun r => r.pl_name = row.pl_name) = true := by
      refine List.any_eq_true.mpr ?_
      obtain ⟨r, hr, he⟩ := hex
      exact ⟨r, hr, by simp [he]⟩
    have hins := insertPlanet_dupName st.table planet row hb hn ha
    rw [processRecord_error st planet _ hins]
    exact ⟨rfl, rfl, rfl⟩

/-- Witness for C2: running the loader on two records sharing a name yields
pairwise-distinct persisted names, and processing the duplicate against a
state already holding the first row skips it and leaves the table intact. -/
theorem claim_C2_witness :
    ((migrate_json_to_sqlite [samplePlanetA, samplePlanetB] []).table.map
        (fun r => r.pl_name)).Nodup ∧
      bindRow samplePlanetB = some sampleRowB ∧
      sampleRowB.pl_name ≠ SQLValue.vnull ∧
      (∃ r ∈ sampleState.table, r.pl_name = sampleRowB.pl_name) ∧
      (processRecord sampleState samplePlanetB).table = sampleState.table ∧
      (processRecord sampleState samplePlanetB).skipped
          = sampleState.skipped + 1 ∧
      (processRecord sampleState samplePlanetB).inserted
          = sampleState.inserted := by
  have hmem : ∃ r ∈ sampleState.table, r.pl_name = sampleRowB.pl_name :=
    ⟨sampleRowA, by decide, rfl⟩
  have h2 := claim_C2_unique_names.2 sampleState samplePlanetB sampleRowB
    (by rfl) (by decide) hmem
  exact ⟨claim_C2_unique_names.1 [samplePlanetA, samplePlanetB] [], by rfl,
         by decide, hmem, h2.1, h2.2.1, h2.2.2⟩

/-- Claim C3: a second run on the same input yields the same final row count
as the first, because `create_database` drops and recreates the table, making
the result independent of whatever the destination held before. -/
theorem claim_C3_idempotent (planets : List Record) (priorTable : List Row) :
    (migrate_json_to_sqlite planets
        (migrate_json_to_sqlite planets priorTable).table).table.length
      = (migrate_json_to_sqlite planets priorTable).table.length ∧
    ∀ db1 db2 : List Row,
      migrate_json_to_sqlite planets db1 = migrate_json_to_sqlite planets db2 :=
  ⟨rfl, fun _ _ => rfl⟩

/-- Claim C4: a stored row for a record without a `default_flag` key has
`default_flag = 1`; every other field absent from the record is stored as
NULL (a record without a `pl_name` key is never stored at all, since the
NULL name violates NOT NULL). -/
theorem claim_C4_default_flag (table : List Row) (planet : Record) (row : Row)
    (h : insertPlanet table planet = .ok row) :
    (getField planet "default_flag" = none → row.default_flag = .vint 1) ∧
    (getField planet "hostname" = none → row.hostname = .vnull) ∧
    (getField planet "sy_dist" = none → row.sy_dist = .vnull) ∧
    (getField planet "pl_orbper" = none → row.pl_orbper = .vnull) ∧
    (getField planet "pl_rade" = none → row.pl_rade = .vnull) ∧
    (getField planet "pl_bmasse" = none → row.pl_bmasse = .vnull) ∧
    (getField planet "pl_eqt" = none → row.pl_eqt = .vnull) ∧
    (getField planet "pl_orbsmax" = none → row.pl_orbsmax = .vnull) ∧
    (getField planet "pl_orbeccen" = none → row.pl_orbeccen = .vnull) ∧
    (getField planet "st_spectype" = none → row.st_spectype = .vnull) ∧
    (getField planet "st_teff" = none → row.st_teff = .vnull) ∧
    (getField planet "st_rad" = none → row.st_rad = .vnull) ∧
    (getField planet "st_mass" = none → row.st_mass = .vnull) ∧
    (getField planet "disc_year" = none → row.disc_year = .vnull) ∧
    (getField planet "discoverymethod" = none → row.discoverymethod = .vnull) ∧
    (getField planet "ra" = none → row.ra = .vnull) ∧
    (getField planet "dec" = none → row.dec = .vnull) := by
  obtain ⟨hb, -, -⟩ := insertPlanet_ok_inv table planet row h
  obtain ⟨f1, f2, f3, f4, f5, f6, f7, f8, f9, f10, f11, f12, f13, f14, f15,
          f16, f17, f18⟩ := bindRow_fields planet row hb
  exact ⟨fun hg => toSQL_absent_flag planet _ hg f18,
         fun hg => toSQL_absent planet _ _ hg f2,
         fun hg => toSQL_absent planet _ _ hg f3,
         fun hg => toSQL_absent planet _ _ hg f4,
         fun hg => toSQL_absent planet _ _ hg f5,
         fun hg => toSQL_absent planet _ _ hg f6,
         fun hg => toSQL_absent planet _ _ hg f7,
         fun hg => toSQL_absent planet _ _ hg f8,
         fun hg => toSQL_absent planet _ _ hg f9,
         fun hg => toSQL_absent planet _ _ hg f10,
         fun hg => toSQL_absent planet _ _ hg f11,
         fun hg => toSQL_absent planet _ _ hg f12,
         fun hg => toSQL_absent planet _ _ hg f13,
         fun hg => toSQL_absent planet _ _ hg f14,
         fun hg => toSQL_absent planet _ _ hg f15,
         fun hg => toSQL_absent planet _ _ hg f16,
         fun hg => toSQL_absent planet _ _ hg f17⟩

/-- Witness for C4: a record carrying only a name is stored with
`default_flag = 1` and NULL in the other absent columns. -/
theorem claim_C4_witness :
    insertPlanet [] sampleLonePlanet = .ok sampleLoneRow ∧
      getField sampleLonePlanet "default_flag" = none ∧
      getField sampleLonePlanet "hostname" = none ∧
      sampleLoneRow.default_flag = SQLValue.vint 1 ∧
      sampleLoneRow.hostname = SQLValue.vnull := by
  have h := claim_C4_default_flag [] sampleLonePlanet sampleLoneRow (by rfl)
  exact ⟨by rfl, rfl, rfl, h.1 rfl, h.2.1 rfl⟩

/-- Claim C5: a non-200 response makes the Fetcher fail at once with an error
whose message contains the numeric status code and the 200-character body
excerpt, and the `__main__` block writes no output file.  (No retry exists:
the model consumes exactly one response.) -/
theorem claim_C5_non200 (resp : HTTPResponse) (h : resp.status ≠ 200) :
    ∃ msg, fetch_all_exoplanets resp = .error msg ∧
      strContains msg (toString resp.status) ∧
      strContains msg (resp.text.take 200) ∧
      fetcherMain resp = none := by
  have herr : fetch_all_exoplanets resp
      = .error ("HTTP " ++ toString resp.status ++ ": " ++ resp.text.take 200) := by
    unfold fetch_all_exoplanets
    rw [if_pos h]
  refine ⟨"HTTP " ++ toString resp.status ++ ": " ++ resp.text.take 200,
          herr, ?_, ?_, ?_⟩
  · exact ⟨"HTTP ", ": " ++ resp.text.take 200,
           by rw [String.append_assoc]⟩
  · exact ⟨"HTTP " ++ toString resp.status ++ ": ", "",
           by rw [String.append_empty, String.append_assoc]⟩
  · unfold fetcherMain
    rw [herr]

set_option maxRecDepth 4000 in
/-- Witness for C5: a mocked 404 response yields an error containing "404"
and the body excerpt, and no output file is written. -/
theorem claim_C5_witness :
    ∃ msg, fetch_all_exoplanets ⟨404, "Not Found", []⟩ = .error msg ∧
      strContains msg "404" ∧ strContains msg "Not Found" ∧
      fetcherMain ⟨404, "Not Found", []⟩ = none := by
  obtain ⟨msg, h1, h2, h3, h4⟩ :=
    claim_C5_non200 ⟨404, "Not Found", []⟩ (by decide)
  have htos : toString (404 : Nat) = "404" := by decide
  have htake : ("Not Found" : String).take 200 = "Not Found" := by decide
  rw [htos] at h2
  rw [htake] at h3
  exact ⟨msg, h1, h2, h3, h4⟩

/-- Claim C6: messages are emitted exactly for the first five skipped records
(the bounded log is the 5-prefix of the full failure-message sequence, which
has one entry per skip), so at most 5 duplicate warnings and at most 5 error
messages appear; and every failure only increments the skip counter —
processing continues through the whole input. -/
theorem claim_C6_bounded_logging (planets : List Record)
    (priorTable : List Row) :
    (migrate_json_to_sqlite planets priorTable).log
        = (migrate_json_to_sqlite planets priorTable).logAll.take 5 ∧
      (migrate_json_to_sqlite planets priorTable).logAll.length
        = (migrate_json_to_sqlite planets priorTable).skipped ∧
      ((migrate_json_to_sqlite planets priorTable).log.filter
          isDupMsg).length ≤ 5 ∧
      ((migrate_json_to_sqlite planets priorTable).log.filter
          isFailMsg).length ≤ 5 ∧
      (migrate_json_to_sqlite planets priorTable).inserted
          + (migrate_json_to_sqlite planets priorTable).skipped
        = planets.length := by
  rw [migrate_eq_processAll]
  obtain ⟨hlog, hlen⟩ :=
    processAll_log planets (initState priorTable) rfl rfl
  have hc := processAll_counts planets (initState priorTable)
  have h1 : (initState priorTable).inserted = 0 := rfl
  have h2 : (initState priorTable).skipped = 0 := rfl
  have h5 : (processAll (initState priorTable) planets).log.length ≤ 5 := by
    rw [hlog, List.length_take]
    omega
  exact ⟨hlog, hlen,
         le_trans (List.length_filter_le _ _) h5,
         le_trans (List.length_filter_le _ _) h5,
         by omega⟩

/-- Claim C7: the min/max discovery-year figures of the post-load report are
computed over exactly the rows with a non-null `disc_year`, and are the
minimum and maximum of that non-null set (in SQLite's value order). -/
theorem claim_C7_year_report (planets : List Record) (priorTable : List Row) :
    (∀ v ∈ nonNullYears (migrate_json_to_sqlite planets priorTable).table,
        v ≠ SQLValue.vnull) ∧
    (nonNullYears (migrate_json_to_sqlite planets priorTable).table = [] →
      discYearReport (migrate_json_to_sqlite planets priorTable).table
        = (none, none)) ∧
    (nonNullYears (migrate_json_to_sqlite planets priorTable).table ≠ [] →
      ∃ mn mx,
        discYearReport (migrate_json_to_sqlite planets priorTable).table
            = (some mn, some mx) ∧
          mn ∈ nonNullYears (migrate_json_to_sqlite planets priorTable).table ∧
          mx ∈ nonNullYears (migrate_json_to_sqlite planets priorTable).table ∧
          ∀ y ∈ nonNullYears (migrate_json_to_sqlite planets priorTable).table,
            sqlLe mn y = true ∧ sqlLe y mx = true) := by
  refine ⟨?_, ?_, ?_⟩
  · intro v hv
    have := List.of_mem_filter hv
    simpa using this
  · intro hnil
    unfold discYearReport
    rw [hnil]
    rfl
  · intro hne
    obtain ⟨mn, hmn1, hmn2, hmn3⟩ := sqlMin_spec _ hne
    obtain ⟨mx, hmx1, hmx2, hmx3⟩ := sqlMax_spec _ hne
    refine ⟨mn, mx, ?_, hmn2, hmx2, fun y hy => ⟨hmn3 y hy, hmx3 y hy⟩⟩
    unfold discYearReport
    rw [hmn1, hmx1]

/-- Witness for C7: on records with years 2011, absent, 1995 the report is
`(1995, 2011)`, computed over the two non-null years. -/
theorem claim_C7_witness :
    nonNullYears (migrate_json_to_sqlite sampleYearPlanets []).table ≠ [] ∧
      ∃ mn mx,
        discYearReport (migrate_json_to_sqlite sampleYearPlanets []).table
            = (some mn, some mx) ∧
          mn ∈ nonNullYears (migrate_json_to_sqlite sampleYearPlanets []).table ∧
          mx ∈ nonNullYears (migrate_json_to_sqlite sampleYearPlanets []).table ∧
          ∀ y ∈ nonNullYears (migrate_json_to_sqlite sampleYearPlanets []).table,
            sqlLe mn y = true ∧ sqlLe y mx = true :=
  ⟨by decide, (claim_C7_year_report sampleYearPlanets []).2.2 (by decide)⟩

/-- Counterexample to C8 as stated: the `planets` table does not have 19
columns — the 18 data fields plus the id and the timestamp make 20. -/
theorem claim_C8_counterexample : ¬ (planetsColumns.length = 19) := by decide

/-- Claim C8 (amended): the table has exactly 20 columns — the 18 data
fields of the INSERT plus the auto-increment `id` and the `created_at`
timestamp — and 7 secondary indexes on `pl_name`, `disc_year`,
`discoverymethod`, `pl_rade`, `pl_bmasse`, `st_teff` and `sy_dist`, each on a
column of the table. -/
theorem claim_C8_schema :
    planetsColumns.length = 20 ∧ insertColumns.length = 18 ∧
      planetsColumns = "id" :: insertColumns ++ ["created_at"] ∧
      planetsIndexes.length = 7 ∧
      planetsIndexes.map Prod.snd
        = ["pl_name", "disc_year", "discoverymethod", "pl_rade", "pl_bmasse",
           "st_teff", "sy_dist"] ∧
      ∀ i ∈ planetsIndexes, i.2 ∈ planetsColumns := by decide

/-- Claim C9: for every sequence and positive chunk size, `paginate` yields
chunks that concatenate back to the input, all of the given size except
possibly a shorter final chunk. -/
theorem claim_C9_paginate {α : Type} (data : List α) (batchSize : Nat)
    (h : 0 < batchSize) :
    (paginate data batchSize).flatten = data ∧
      (∀ c ∈ (paginate data batchSize).dropLast, c.length = batchSize) ∧
      (∀ c ∈ paginate data batchSize, c.length ≤ batchSize) :=
  ⟨paginate_flatten data batchSize h,
   paginate_chunk_full batchSize h data.length data le_rfl,
   paginate_chunk_le batchSize h data.length data le_rfl⟩

/-- Witness for C9: `paginate [1,2,3,4,5] 2` flattens back to the input. -/
theorem claim_C9_witness :
    0 < 2 ∧ (paginate [1, 2, 3, 4, 5] 2).flatten = [1, 2, 3, 4, 5] :=
  ⟨by decide, (claim_C9_paginate [1, 2, 3, 4, 5] 2 (by decide)).1⟩

/-- Claim C10: a run that processes the whole input has
`inserted + skipped = input length`: every record bumps exactly one of the
two counters. -/
theorem claim_C10_counters (planets : List Record) (priorTable : List Row) :
    (migrate_json_to_sqlite planets priorTable).inserted
        + (migrate_json_to_sqlite planets priorTable).skipped
      = planets.length := by
  rw [migrate_eq_processAll]
  have hc := processAll_counts planets (initState priorTable)
  have h1 : (initState priorTable).inserted = 0 := rfl
  have h2 : (initState priorTable).skipped = 0 := rfl
  omega
